import Mathlib

/-!
Shallow embedding of the analytics-dashboard aggregation engine.

Events are immutable records (src/lib/types.ts).  Strings stay strings,
JS numbers that hold counts become Nat, monetary values (cents) become Int,
and derived rates (JS floating-point divisions of small integer counts,
which are exact) become ℚ.  JS `Set` sizes are modelled by first-seen
deduplication of a list; JS `Map` / object insertion order is first-seen
key order (the object keys used by the engine are never integer-like,
except the single-day hour record, whose keys 0..23 enumerate ascending).
`String.localeCompare` and the JS string `<=` / `>=` operators are
modelled by lexicographic code-point comparison (`strLe`); the default
locale agrees with code-point order on every comparison the engine makes,
since its keys (ISO timestamps, `YYYY-MM-DD` dates, `date|hour` composite
keys) only ever differ at digit positions.  `new Date(ts).getHours()` is
modelled by reading the two-digit `HH` field of the ISO string (the
fixed-offset reading; the repository stores all timestamps in one fixed
representation).  JS `NaN` flowing out of `parseInt` is modelled by
`Option` (`none` = NaN), propagated through arithmetic, and JS
`Array.slice` coerces it to 0 exactly as `ToIntegerOrInfinity` does.
-/

namespace Analytics

/-- The Event record of src/lib/types.ts.  `value` is the optional revenue
in cents, present only on purchase events. -/
structure Event where
  event_id : String
  timestamp : String
  session_id : String
  user_id : String
  event_name : String
  variant : String
  device : String
  channel : String
  experiment_id : String
  experiment_name : String
  value : Option Int
deriving DecidableEq, Repr

/-- First-seen deduplication: the distinct elements of `l` in order of first
occurrence, as a JS `Set` or `Map` collects its keys.  (Mathlib's `dedup`
keeps last occurrences, so we dedup the reversal.) -/
def dedupFS [DecidableEq α] (l : List α) : List α :=
  l.reverse.dedup.reverse

/-- `new Set(l).size`: the number of distinct elements of `l`. -/
def distinctCount [DecidableEq α] (l : List α) : Nat :=
  (dedupFS l).length

/-- JS `e.value || 0`. -/
def jsValue (e : Event) : Int :=
  e.value.getD 0

/-- JS truthiness of the optional `value` field (`e.value` used as a
condition): defined and non-zero. -/
def truthyValue : Option Int → Bool
  | none => false
  | some n => n != 0

/-- `timestamp.split('T')[0]`: the date part of an ISO timestamp. -/
def dateOf (ts : String) : String :=
  ⟨ts.data.takeWhile (fun c => c ≠ 'T')⟩

/-- Reads a digit string (big-endian) into a number. -/
def digitsToNat : List Char → Nat → Nat
  | [], acc => acc
  | c :: cs, acc => digitsToNat cs (acc * 10 + (c.toNat - 48))

/-- `new Date(ts).getHours()` for an ISO timestamp under the fixed-offset
reading: the two-digit hour field at string positions 11-12. -/
def hourOf (ts : String) : Nat :=
  let cs := (ts.data.drop 11).take 2
  if cs ≠ [] ∧ cs.all (fun c => c.isDigit) then digitsToNat cs 0 else 0

/-- `n.toString().padStart(2, '0')`. -/
def pad2 (n : Nat) : String :=
  if n < 10 then "0" ++ toString n else toString n

/-- JS `parseInt(s, 10)`: skip leading whitespace, optional sign, then the
longest run of digits; `none` models the `NaN` result when no digit
follows. -/
def jsParseInt (s : String) : Option Int :=
  let cs := s.data.dropWhile (fun c => c.isWhitespace)
  match cs with
  | '-' :: rest => (run rest).map (fun n => -(n : Int))
  | '+' :: rest => (run rest).map (fun n => (n : Int))
  | rest => (run rest).map (fun n => (n : Int))
where
  run (cs : List Char) : Option Nat :=
    let ds := cs.takeWhile (fun c => c.isDigit)
    if ds = [] then none else some (digitsToNat ds 0)

/-- JS `raw || d` for a nullable string query parameter: the default
replaces both a missing and an empty (falsy) value. -/
def jsOr (raw : Option String) (d : String) : String :=
  match raw with
  | none => d
  | some s => if s = "" then d else s

/-- Lexicographic code-point comparison of character lists: the order JS
string `<=` uses, and the order `localeCompare` realizes on the digit-only
differences occurring in this engine. -/
def lexLe : List Char → List Char → Bool
  | [], _ => true
  | _ :: _, [] => false
  | a :: as, b :: bs => if a < b then true else if b < a then false else lexLe as bs

/-- JS `a <= b` on strings. -/
def strLe (a b : String) : Bool :=
  lexLe a.data b.data

/-- JS `a < b` on strings (strict part of `strLe`). -/
def strLt (a b : String) : Bool :=
  strLe a b && !(strLe b a)

/-! ## Filter primitives (src/lib/db.ts) -/

/-- `filterEventsByDateRange`: each bound, when supplied (and truthy),
keeps the events whose full timestamp passes `>= startDate` resp.
`<= endDate` (whole-string comparison, not the date part). -/
def filterEventsByDateRange (events : List Event) (startDate endDate : Option String) :
    List Event :=
  let f1 :=
    match startDate with
    | none => events
    | some s => if s = "" then events else events.filter (fun e => strLe s e.timestamp)
  match endDate with
  | none => f1
  | some t => if t = "" then f1 else f1.filter (fun e => strLe e.timestamp t)

/-! ## Funnel aggregator (src/app/api/funnel/route.ts) -/

def FUNNEL_STEPS : List String :=
  ["page_view", "add_to_cart", "begin_checkout", "purchase"]

/-- JS `step.replace('_', ' ')` replaces only the first occurrence. -/
def replaceFirstUnderscore (s : String) : String :=
  ⟨go s.data⟩
where
  go : List Char → List Char
    | [] => []
    | c :: rest => if c = '_' then ' ' :: rest else c :: go rest

structure FunnelStep where
  step_name : String
  sessions : Nat
  pct_from_previous : ℚ
  pct_from_start : ℚ
deriving DecidableEq, Repr

instance : Inhabited FunnelStep :=
  ⟨{ step_name := "", sessions := 0, pct_from_previous := 0, pct_from_start := 0 }⟩

/-- `stepSessions[step]`: the distinct session ids having at least one
event named `step`. -/
def stepSessionsOf (events : List Event) (step : String) : List String :=
  dedupFS ((events.filter (fun e => e.event_name = step)).map (fun e => e.session_id))

/-- The funnel route's GET body: one FunnelStep per entry of FUNNEL_STEPS,
carrying `previousCount` across the iteration (initially 0). -/
def computeFunnel (events : List Event) : List FunnelStep :=
  let firstStepCount := (stepSessionsOf events "page_view").length
  (FUNNEL_STEPS.foldl
    (fun (acc : List FunnelStep × Nat) step =>
      let currentCount := (stepSessionsOf events step).length
      let pctFromStart : ℚ :=
        if firstStepCount > 0 then ((currentCount : ℚ) / firstStepCount) * 100 else 0
      let pctFromPrevious : ℚ :=
        if acc.2 > 0 then ((currentCount : ℚ) / acc.2) * 100 else 100
      (acc.1 ++ [{ step_name := replaceFirstUnderscore step,
                   sessions := currentCount,
                   pct_from_previous := pctFromPrevious,
                   pct_from_start := pctFromStart }], currentCount))
    ([], 0)).1

/-! ## Event listing (src/app/api/events/route.ts) -/

/-- `ToIntegerOrInfinity` clamping of one `Array.slice` argument:
`NaN` becomes 0, a negative index counts from the end (clamped at 0), a
positive one is clamped at the length. -/
def sliceIndex (len : Nat) (v : Option Int) : Nat :=
  match v with
  | none => 0
  | some i => if i < 0 then ((len : Int) + i).toNat else min i.toNat len

/-- JS `l.slice(s, e)` with possibly-NaN (`none`) bounds. -/
def jsSlice (l : List α) (s e : Option Int) : List α :=
  (l.take (sliceIndex l.length e)).drop (sliceIndex l.length s)

structure EventsResponse where
  data : List Event
  page : Option Int
  limit : Option Int
  total : Nat
  totalPages : Option Int
deriving DecidableEq, Repr

/-- The events route's GET body.  `page` and `limit` are the raw query
parameters (`none` = absent); NaN from `parseInt` is `none` and propagates
through `Math.min` and the index arithmetic.  `totalPages` is
`Math.ceil(total / limit)`; a zero `limit` (JS `Infinity`) is modelled as
`none` alongside NaN, which no claim exercises. -/
def listEvents (events : List Event) (pageParam limitParam sessionIdParam : Option String) :
    EventsResponse :=
  let page := jsParseInt (jsOr pageParam "1")
  let limit := (jsParseInt (jsOr limitParam "50")).map (fun l => min l 200)
  let filtered :=
    match sessionIdParam with
    | none => events
    | some sid => if sid = "" then events else events.filter (fun e => e.session_id = sid)
  let sorted := List.insertionSort (fun a b => strLe b.timestamp a.timestamp = true) filtered
  let startIndex := page.bind (fun p => limit.map (fun l => (p - 1) * l))
  let endIndex := startIndex.bind (fun s => limit.map (fun l => s + l))
  { data := jsSlice sorted startIndex endIndex,
    page := page,
    limit := limit,
    total := filtered.length,
    totalPages :=
      limit.bind (fun l =>
        if l = 0 then none else some ⌈(filtered.length : ℚ) / (l : ℚ)⌉) }

/-! ## A/B test aggregator (src/app/api/ab-test/route.ts) -/

structure ABTestResult where
  variant : String
  sessions : Nat
  conversions : Nat
  conversion_rate : ℚ
  revenue : Int
  revenue_per_session : ℚ
deriving DecidableEq, Repr

instance : Inhabited ABTestResult :=
  ⟨{ variant := "", sessions := 0, conversions := 0, conversion_rate := 0,
     revenue := 0, revenue_per_session := 0 }⟩

structure ABExperiment where
  experiment_id : String
  experiment_name : String
  results : List ABTestResult
deriving DecidableEq, Repr

instance : Inhabited ABExperiment :=
  ⟨{ experiment_id := "", experiment_name := "", results := [] }⟩

/-- One arm of an experiment: the per-variant block of the route body.
Revenue sums `value` over purchase events with a truthy `value`. -/
def variantResult (evs : List Event) (v : String) : ABTestResult :=
  let vd := evs.filter (fun e => e.variant = v)
  let sessions := distinctCount (vd.map (fun e => e.session_id))
  let conversions := (vd.filter (fun e => e.event_name = "purchase")).length
  let conversionRate : ℚ :=
    if sessions > 0 then ((conversions : ℚ) / sessions) * 100 else 0
  let revenue : Int :=
    ((vd.filter (fun e => e.event_name = "purchase" ∧ truthyValue e.value = true)).map
      jsValue).sum
  let revenuePerSession : ℚ := if sessions > 0 then (revenue : ℚ) / sessions else 0
  { variant := v, sessions := sessions, conversions := conversions,
    conversion_rate := conversionRate, revenue := revenue,
    revenue_per_session := revenuePerSession }

/-- The A/B route's GET body: group events by experiment id (first-seen
order, first-seen name), then build exactly the two fixed arms A and B. -/
def computeABResults (events : List Event) : List ABExperiment :=
  let ids := dedupFS (events.map (fun e => e.experiment_id))
  ids.map (fun eid =>
    let evs := events.filter (fun e => e.experiment_id = eid)
    let name :=
      ((events.find? (fun e => e.experiment_id = eid)).map
        (fun e => e.experiment_name)).getD ""
    { experiment_id := eid, experiment_name := name,
      results := ["A", "B"].map (variantResult evs) })

/-! ## Trend aggregator (src/unnamed/part_006, GET /api/trends) -/

structure TrendPoint where
  date : String
  sessions : Nat
  conversions : Nat
  revenue : Int
  conversion_rate : ℚ
deriving DecidableEq, Repr

instance : Inhabited TrendPoint :=
  ⟨{ date := "", sessions := 0, conversions := 0, revenue := 0, conversion_rate := 0 }⟩

/-- The per-date bucket of the trends route: the final value of the
accumulation loop for one date key.  Revenue adds `value` only when truthy
(`if (event.value)`), and the conversion rate divides without a zero
guard (exact division in ℚ; a bucket always holds the event that created
it, so the divisor is positive). -/
def trendBucket (events : List Event) (d : String) : TrendPoint :=
  let dayEvents := events.filter (fun e => dateOf e.timestamp = d)
  let sessions := distinctCount (dayEvents.map (fun e => e.session_id))
  let conversions := (dayEvents.filter (fun e => e.event_name = "purchase")).length
  let revenue : Int :=
    ((dayEvents.filter (fun e => e.event_name = "purchase" ∧ truthyValue e.value = true)).map
      jsValue).sum
  { date := d, sessions := sessions, conversions := conversions, revenue := revenue,
    conversion_rate := ((conversions : ℚ) / (sessions : ℚ)) * 100 }

/-- The trends route's GET body: one bucket per distinct date (first-seen
order), then sorted ascending by date via `localeCompare`. -/
def computeTrends (events : List Event) : List TrendPoint :=
  let dates := dedupFS (events.map (fun e => dateOf e.timestamp))
  List.insertionSort (fun a b => strLe a.date b.date = true) (dates.map (trendBucket events))

/-! ## Overview aggregator (src/unnamed/part_004, GET /api/overview) -/

/-- The four optional filters of the overview route, applied in order
(each `if (param)` is a truthiness test, so an empty string disables the
filter).  Date bounds compare the full timestamp, as in
`filterEventsByDateRange`. -/
def overviewFilter (events : List Event) (startDate endDate device channel : Option String) :
    List Event :=
  let e1 :=
    match startDate with
    | none => events
    | some s => if s = "" then events else events.filter (fun e => strLe s e.timestamp)
  let e2 :=
    match endDate with
    | none => e1
    | some t => if t = "" then e1 else e1.filter (fun e => strLe e.timestamp t)
  let e3 :=
    match device with
    | none => e2
    | some d => if d = "" then e2 else e2.filter (fun e => e.device = d)
  match channel with
  | none => e3
  | some c => if c = "" then e3 else e3.filter (fun e => e.channel = c)

structure HourlyMetric where
  hour : String
  hour_24 : Int
  day : Option String
  sessions : Nat
  conversions : Nat
  revenue : ℚ
  channels : List (String × Nat)
deriving DecidableEq, Repr

instance : Inhabited HourlyMetric :=
  ⟨{ hour := "", hour_24 := 0, day := none, sessions := 0, conversions := 0,
     revenue := 0, channels := [] }⟩

/-- The channel histogram of one bucket: every event with a truthy channel
is counted, keys in first-seen order (JS object keys are not
integer-like here). -/
def channelHistogram (evs : List Event) : List (String × Nat) :=
  let chs := (evs.filter (fun e => e.channel ≠ "")).map (fun e => e.channel)
  (dedupFS chs).map (fun c => (c, (chs.filter (fun x => x = c)).length))

/-- The final value of one bucket of either hourly accumulation loop:
distinct sessions, purchase count, purchase revenue in cents (`value || 0`,
no truthiness filter here), channel histogram. -/
structure BucketData where
  sessions : Nat
  purchases : Nat
  revenueCents : Int
  channels : List (String × Nat)

def bucketData (evs : List Event) : BucketData :=
  { sessions := distinctCount (evs.map (fun e => e.session_id)),
    purchases := (evs.filter (fun e => e.event_name = "purchase")).length,
    revenueCents := ((evs.filter (fun e => e.event_name = "purchase")).map jsValue).sum,
    channels := channelHistogram evs }

/-- The single-day branch: 24 fixed buckets for hours 0-23 (`Object.entries`
enumerates the integer-like keys ascending), each dividing its cents by
100. -/
def singleDayMetrics (evs : List Event) : List HourlyMetric :=
  (List.range 24).map (fun h =>
    let d := bucketData (evs.filter (fun e => hourOf e.timestamp = h))
    { hour := pad2 h ++ ":00", hour_24 := (h : Int), day := none,
      sessions := d.sessions, conversions := d.purchases,
      revenue := (d.revenueCents : ℚ) / 100, channels := d.channels })

/-- The multi-day composite key `` `${date}|${hour}` `` with the hour in
unpadded decimal. -/
def dayHourKey (e : Event) : String :=
  dateOf e.timestamp ++ "|" ++ toString (hourOf e.timestamp)

/-- The multi-day branch: buckets keyed by `date|hour` for occurring keys
only (first-seen order), sorted by `localeCompare` on the composite key,
then rendered by splitting the key back apart. -/
def multiDayMetrics (evs : List Event) : List HourlyMetric :=
  let keys := dedupFS (evs.map dayHourKey)
  let sortedKeys := List.insertionSort (fun a b => strLe a b = true) keys
  sortedKeys.map (fun k =>
    let date : String := ⟨k.data.takeWhile (fun c => c ≠ '|')⟩
    let hourStr : String := ⟨(k.data.dropWhile (fun c => c ≠ '|')).drop 1⟩
    let hourNum : Int := (jsParseInt hourStr).getD 0
    let shortDate : String := ⟨date.data.drop 5⟩
    let d := bucketData (evs.filter (fun e => dayHourKey e = k))
    { hour := shortDate ++ " " ++ pad2 hourNum.toNat ++ ":00", hour_24 := hourNum,
      day := some date, sessions := d.sessions, conversions := d.purchases,
      revenue := (d.revenueCents : ℚ) / 100, channels := d.channels })

structure Overview where
  sessions : Nat
  purchases : Nat
  conversion_rate : ℚ
  revenue : Int
  aov : ℚ
  dateRangeStart : Option String
  dateRangeEnd : Option String
  hourly_metrics : List HourlyMetric
  is_single_day : Bool
deriving DecidableEq, Repr

/-- The overview route's GET body.  The date range takes the date part of
the first and last timestamp after a default (lexicographic) sort; on an
empty set both ends are null and the single-day branch runs. -/
def computeOverview (events : List Event) (startDate endDate device channel : Option String) :
    Overview :=
  let evs := overviewFilter events startDate endDate device channel
  let uniqueSessions := distinctCount (evs.map (fun e => e.session_id))
  let purchases := evs.filter (fun e => e.event_name = "purchase")
  let purchaseCount := purchases.length
  let conversionRate : ℚ :=
    if uniqueSessions > 0 then ((purchaseCount : ℚ) / uniqueSessions) * 100 else 0
  let totalRevenue : Int := (purchases.map jsValue).sum
  let aov : ℚ := if purchaseCount > 0 then (totalRevenue : ℚ) / purchaseCount else 0
  let timestamps := List.insertionSort (fun a b => strLe a b = true) (evs.map (fun e => e.timestamp))
  let startD := timestamps.head?.map dateOf
  let endD := timestamps.getLast?.map dateOf
  { sessions := uniqueSessions, purchases := purchaseCount,
    conversion_rate := conversionRate, revenue := totalRevenue, aov := aov,
    dateRangeStart := startD, dateRangeEnd := endD,
    hourly_metrics := if startD = endD then singleDayMetrics evs else multiDayMetrics evs,
    is_single_day := decide (startD = endD) }

/-! ## Concrete inputs used by counterexamples and witnesses -/

/-- A fully-populated sample event. -/
def mkE (ts sid en : String) (v : Option Int) : Event :=
  { event_id := "e", timestamp := ts, session_id := sid, user_id := "u",
    event_name := en, variant := "A", device := "mobile", channel := "organic",
    experiment_id := "x1", experiment_name := "Exp", value := v }

/-- The spec's 3-event scenario: session s1 views and purchases, session s2
only views. -/
def scenario3 : List Event :=
  [ mkE "2024-01-01T10:00:00Z" "s1" "page_view" none,
    mkE "2024-01-01T10:05:00Z" "s1" "purchase" (some 5000),
    mkE "2024-01-01T11:00:00Z" "s2" "page_view" none ]

/-- A single event, for the pagination counterexample. -/
def demoOne : List Event :=
  [mkE "2024-01-01T10:00:00Z" "s1" "page_view" none]

/-- An event at mid-day on the would-be end date of a range query. -/
def demoEndDate : Event :=
  mkE "2024-01-05T10:00:00Z" "s1" "page_view" none

/-- One session with two purchases: more conversions than sessions. -/
def demoDouble : List Event :=
  [ mkE "2024-02-01T09:00:00Z" "s1" "purchase" (some 100),
    mkE "2024-02-01T09:30:00Z" "s1" "purchase" (some 200) ]

/-- Three events across two dates with hours 2, 10 and 5: the multi-day
overview branch runs and must order hour 2 before hour 10. -/
def demoMultiDay : List Event :=
  [ mkE "2024-03-01T02:15:00Z" "s1" "page_view" none,
    mkE "2024-03-01T10:20:00Z" "s2" "purchase" (some 700),
    mkE "2024-03-02T05:00:00Z" "s3" "page_view" none ]

/-! ## Order properties of the embedded string comparison -/

theorem lexLe_total : ∀ (a b : List Char), lexLe a b = true ∨ lexLe b a = true
  | [], _ => Or.inl rfl
  | _ :: _, [] => Or.inr rfl
  | a :: as, b :: bs => by
    rcases lt_trichotomy a b with h | h | h
    · left; simp [lexLe, h]
    · subst h
      simpa [lexLe] using lexLe_total as bs
    · right; simp [lexLe, h]

theorem lexLe_trans : ∀ {a b c : List Char},
    lexLe a b = true → lexLe b c = true → lexLe a c = true
  | [], _, _, _, _ => rfl
  | _ :: _, [], _, hab, _ => by simp [lexLe] at hab
  | _ :: _, _ :: _, [], _, hbc => by simp [lexLe] at hbc
  | a :: as, b :: bs, c :: cs, hab, hbc => by
    rcases lt_trichotomy a b with h1 | h1 | h1
    · rcases lt_trichotomy b c with h2 | h2 | h2
      · simp [lexLe, lt_trans h1 h2]
      · subst h2; simp [lexLe, h1]
      · simp [lexLe, h2, not_lt_of_lt h2] at hbc
    · subst h1
      rcases lt_trichotomy a c with h2 | h2 | h2
      · simp [lexLe, h2]
      · subst h2
        simp [lexLe, lt_irrefl] at hab hbc ⊢
        exact lexLe_trans hab hbc
      · simp [lexLe, h2, not_lt_of_lt h2] at hbc
    · simp [lexLe, h1, not_lt_of_lt h1] at hab

theorem lexLe_antisymm : ∀ {a b : List Char},
    lexLe a b = true → lexLe b a = true → a = b
  | [], [], _, _ => rfl
  | [], _ :: _, _, hba => by simp [lexLe] at hba
  | _ :: _, [], hab, _ => by simp [lexLe] at hab
  | a :: as, b :: bs, hab, hba => by
    rcases lt_trichotomy a b with h1 | h1 | h1
    · simp [lexLe, h1, not_lt_of_lt h1] at hba
    · subst h1
      simp [lexLe, lt_irrefl] at hab hba
      rw [lexLe_antisymm hab hba]
    · simp [lexLe, h1, not_lt_of_lt h1] at hab

theorem strLe_total (a b : String) : strLe a b = true ∨ strLe b a = true :=
  lexLe_total a.data b.data

theorem strLe_trans {a b c : String} (h1 : strLe a b = true) (h2 : strLe b c = true) :
    strLe a c = true :=
  lexLe_trans h1 h2

theorem strLe_antisymm {a b : String} (h1 : strLe a b = true) (h2 : strLe b a = true) :
    a = b := by
  cases a; cases b
  exact congrArg String.mk (lexLe_antisymm h1 h2)

theorem strLt_of_strLe_of_ne {a b : String} (h1 : strLe a b = true) (h2 : a ≠ b) :
    strLt a b = true := by
  have : strLe b a ≠ true := fun hba => h2 (strLe_antisymm h1 hba)
  simp [strLt, h1, this]

/-! ## First-seen deduplication -/

theorem mem_dedupFS [DecidableEq α] {a : α} {l : List α} : a ∈ dedupFS l ↔ a ∈ l := by
  simp [dedupFS, List.mem_dedup]

theorem nodup_dedupFS [DecidableEq α] (l : List α) : (dedupFS l).Nodup := by
  simpa [dedupFS, List.nodup_reverse] using l.reverse.nodup_dedup

theorem distinctCount_eq_card [DecidableEq α] (l : List α) :
    distinctCount l = l.toFinset.card := by
  rw [distinctCount, dedupFS, List.length_reverse, ← List.card_toFinset,
    List.toFinset_reverse]

theorem distinctCount_pos [DecidableEq α] {l : List α} (h : l ≠ []) :
    1 ≤ distinctCount l := by
  obtain ⟨a, ha⟩ := List.exists_mem_of_ne_nil l h
  exact List.length_pos_of_mem (mem_dedupFS.mpr ha)

/-! ## getD membership -/

theorem getD_mem_of_lt [Inhabited α] :
    ∀ (l : List α) (n : Nat), n < l.length → l.getD n default ∈ l
  | [], n, h => absurd h (by simp)
  | a :: as, 0, _ => by simp
  | a :: as, n + 1, h => by
    rw [List.getD_cons_succ]
    exact List.mem_cons_of_mem a (getD_mem_of_lt as n (by simpa using h))

/-! ## Sum partition over a list of keys -/

theorem sum_map_filter_add (p : α → Bool) (g : α → Int) (l : List α) :
    ((l.filter p).map g).sum + ((l.filter (fun x => !(p x))).map g).sum = (l.map g).sum := by
  induction l with
  | nil => simp
  | cons a as ih =>
    cases h : p a <;> simp [List.filter_cons, h] <;> omega

theorem filter_filter_ne [DecidableEq κ] (f : α → κ) (k k' : κ) (h : k' ≠ k) (l : List α) :
    ((l.filter (fun x => !(decide (f x = k)))).filter (fun x => f x = k')) =
      l.filter (fun x => f x = k') := by
  induction l with
  | nil => rfl
  | cons a as ih =>
    by_cases h1 : f a = k'
    · have h2 : ¬ f a = k := by rw [h1]; exact h
      simp [List.filter_cons, h1, h2, ih, h]
    · by_cases h2 : f a = k <;> simp [List.filter_cons, h1, h2, ih, h, Ne.symm h]

theorem sum_map_partition [DecidableEq κ] (f : α → κ) (g : α → Int) :
    ∀ (keys : List κ) (l : List α), keys.Nodup → (∀ x ∈ l, f x ∈ keys) →
      (keys.map (fun k => ((l.filter (fun x => f x = k)).map g).sum)).sum = (l.map g).sum
  | [], l, _, hcov => by
    have hl : l = [] := List.eq_nil_iff_forall_not_mem.mpr (fun x hx => by simpa using hcov x hx)
    simp [hl]
  | k :: ks, l, hnd, hcov => by
    have hk : k ∉ ks := (List.nodup_cons.mp hnd).1
    have hnd2 : ks.Nodup := (List.nodup_cons.mp hnd).2
    have hmap : ks.map (fun j => ((l.filter (fun x => f x = j)).map g).sum) =
        ks.map (fun j =>
          (((l.filter (fun x => !(decide (f x = k)))).filter (fun x => f x = j)).map g).sum) := by
      refine List.map_congr_left (fun j hj => ?_)
      have hne : j ≠ k := fun hjk => hk (hjk ▸ hj)
      rw [filter_filter_ne f k j hne]
    have hcov2 : ∀ x ∈ l.filter (fun x => !(decide (f x = k))), f x ∈ ks := by
      intro x hx
      have hx1 := (List.mem_filter.mp hx).1
      have hx2 := (List.mem_filter.mp hx).2
      have := hcov x hx1
      simp only [Bool.not_eq_true', decide_eq_false_iff_not] at hx2
      rcases List.mem_cons.mp this with h | h
      · exact absurd h hx2
      · exact h
    have ih := sum_map_partition f g ks (l.filter (fun x => !(decide (f x = k)))) hnd2 hcov2
    rw [List.map_cons, List.sum_cons, hmap, ih]
    exact sum_map_filter_add (fun x => decide (f x = k)) g l

/-! ## Sums, casts and division by 100 -/

theorem sum_map_ratCast (g : α → Int) (l : List α) :
    (l.map (fun x => ((g x : Int) : ℚ))).sum = (((l.map g).sum : Int) : ℚ) := by
  induction l with
  | nil => simp
  | cons a as ih => simp [ih]

theorem sum_map_div100 (f : α → ℚ) (l : List α) :
    (l.map (fun x => f x / 100)).sum = (l.map f).sum / 100 := by
  induction l with
  | nil => simp
  | cons a as ih => simp [ih, add_div]

theorem dedupFS_length_eq_card [DecidableEq α] (l : List α) :
    (dedupFS l).length = l.toFinset.card :=
  distinctCount_eq_card l

theorem sliceIndex_le (len : Nat) (v : Option Int) : sliceIndex len v ≤ len := by
  cases v with
  | none => exact Nat.zero_le _
  | some i =>
    simp only [sliceIndex]
    split <;> omega

theorem singleDayMetrics_revenue (evs : List Event)
    (hw : ∀ e ∈ evs, hourOf e.timestamp < 24) :
    ((singleDayMetrics evs).map (fun m => m.revenue)).sum =
      ((((evs.filter (fun e => e.event_name = "purchase")).map jsValue).sum : Int) : ℚ) / 100 := by
  have hmap : (singleDayMetrics evs).map (fun m => m.revenue) =
      (List.range 24).map (fun h =>
        (((((evs.filter (fun e => e.event_name = "purchase")).filter
            (fun e => hourOf e.timestamp = h)).map jsValue).sum : Int) : ℚ) / 100) := by
    simp only [singleDayMetrics, bucketData, List.map_map]
    refine List.map_congr_left (fun h hh => ?_)
    simp only [Function.comp]
    rw [List.filter_comm]
  rw [hmap,
    sum_map_div100 (fun h =>
      (((((evs.filter (fun e => e.event_name = "purchase")).filter
          (fun e => hourOf e.timestamp = h)).map jsValue).sum : Int) : ℚ)) (List.range 24)]
  congr 1
  rw [sum_map_ratCast (fun h =>
    (((evs.filter (fun e => e.event_name = "purchase")).filter
      (fun e => hourOf e.timestamp = h)).map jsValue).sum) (List.range 24)]
  congr 1
  exact sum_map_partition (fun e => hourOf e.timestamp) jsValue (List.range 24)
    (evs.filter (fun e => e.event_name = "purchase")) (List.nodup_range 24)
    (fun x hx => List.mem_range.mpr (hw x (List.mem_filter.mp hx).1))

theorem multiDayMetrics_revenue (evs : List Event) :
    ((multiDayMetrics evs).map (fun m => m.revenue)).sum =
      ((((evs.filter (fun e => e.event_name = "purchase")).map jsValue).sum : Int) : ℚ) / 100 := by
  have hperm := List.perm_insertionSort (fun a b : String => strLe a b = true)
    (dedupFS (evs.map dayHourKey))
  have hnd : (List.insertionSort (fun a b : String => strLe a b = true)
      (dedupFS (evs.map dayHourKey))).Nodup :=
    (hperm.nodup_iff).mpr (nodup_dedupFS _)
  have hmap : (multiDayMetrics evs).map (fun m => m.revenue) =
      (List.insertionSort (fun a b : String => strLe a b = true)
        (dedupFS (evs.map dayHourKey))).map (fun k =>
        (((((evs.filter (fun e => e.event_name = "purchase")).filter
            (fun e => dayHourKey e = k)).map jsValue).sum : Int) : ℚ) / 100) := by
    simp only [multiDayMetrics, bucketData, List.map_map]
    refine List.map_congr_left (fun k hk => ?_)
    simp only [Function.comp]
    rw [List.filter_comm]
  rw [hmap,
    sum_map_div100 (fun k =>
      (((((evs.filter (fun e => e.event_name = "purchase")).filter
          (fun e => dayHourKey e = k)).map jsValue).sum : Int) : ℚ))]
  congr 1
  rw [sum_map_ratCast (fun k =>
    (((evs.filter (fun e => e.event_name = "purchase")).filter
      (fun e => dayHourKey e = k)).map jsValue).sum)]
  congr 1
  refine sum_map_partition dayHourKey jsValue _ _ hnd (fun x hx => ?_)
  have hx1 := (List.mem_filter.mp hx).1
  exact (hperm.mem_iff).mpr (mem_dedupFS.mpr (List.mem_map_of_mem _ hx1))

/-! ## Claim theorems -/

/-- C9: for every event sequence and filter combination, 100 times the sum
of the hourly buckets' (decimal-unit) revenues equals the top-line overview
revenue, which stays an undivided sum of cents; each bucket divides its
cents by 100 exactly once.  (The hypothesis says every filtered event
carries a well-formed hour field, which the JS code also needs to avoid
indexing a missing bucket.) -/
theorem overview_hourly_revenue_sum (events : List Event) (s t d c : Option String)
    (hw : ∀ e ∈ overviewFilter events s t d c, hourOf e.timestamp < 24) :
    100 * (((computeOverview events s t d c).hourly_metrics.map (fun m => m.revenue)).sum) =
      (((computeOverview events s t d c).revenue : Int) : ℚ) := by
  simp only [computeOverview]
  split
  · rw [singleDayMetrics_revenue _ hw, mul_comm,
      div_mul_cancel₀ _ (by norm_num : (100 : ℚ) ≠ 0)]
  · rw [multiDayMetrics_revenue, mul_comm,
      div_mul_cancel₀ _ (by norm_num : (100 : ℚ) ≠ 0)]

theorem overview_hourly_revenue_sum_witness :
    (∀ e ∈ overviewFilter demoMultiDay none none none none, hourOf e.timestamp < 24) ∧
      100 * (((computeOverview demoMultiDay none none none none).hourly_metrics.map
        (fun m => m.revenue)).sum) =
        (((computeOverview demoMultiDay none none none none).revenue : Int) : ℚ) :=
  ⟨by decide, overview_hourly_revenue_sum demoMultiDay none none none none (by decide)⟩


/-- C8: the trend output's dates are strictly ascending (in the JS string
order the route sorts by), hence no date bucket repeats. -/
theorem trends_dates_strictly_ascending (events : List Event) :
    List.Pairwise (fun a b => strLt a b = true)
      ((computeTrends events).map (fun t => t.date)) := by
  haveI hTot : IsTotal TrendPoint (fun a b => strLe a.date b.date = true) :=
    ⟨fun a b => strLe_total a.date b.date⟩
  haveI hTrans : IsTrans TrendPoint (fun a b => strLe a.date b.date = true) :=
    ⟨fun a b c h1 h2 => strLe_trans h1 h2⟩
  simp only [computeTrends]
  have hsorted := List.sorted_insertionSort (fun a b : TrendPoint => strLe a.date b.date = true)
    ((dedupFS (events.map (fun e => dateOf e.timestamp))).map (trendBucket events))
  have hpair : List.Pairwise (fun a b : String => strLe a b = true)
      ((List.insertionSort (fun a b : TrendPoint => strLe a.date b.date = true)
        ((dedupFS (events.map (fun e => dateOf e.timestamp))).map (trendBucket events))).map
        (fun t => t.date)) :=
    List.Pairwise.map _ (fun a b h => h) hsorted
  have hperm := List.perm_insertionSort (fun a b : TrendPoint => strLe a.date b.date = true)
    ((dedupFS (events.map (fun e => dateOf e.timestamp))).map (trendBucket events))
  have hpermmap := hperm.map (fun t : TrendPoint => t.date)
  have hnodup0 : (((dedupFS (events.map (fun e => dateOf e.timestamp))).map
      (trendBucket events)).map (fun t => t.date)).Nodup := by
    rw [List.map_map]
    have hcomp : ((fun t : TrendPoint => t.date) ∘ trendBucket events) = id := by
      funext x
      simp [trendBucket]
    rw [hcomp, List.map_id]
    exact nodup_dedupFS _
  have hnodup := (hpermmap.nodup_iff).mpr hnodup0
  have hand := hpair.and hnodup
  exact hand.imp (fun h => strLt_of_strLe_of_ne h.1 h.2)

/-- C10 (implicit): every bucket the trend aggregator emits was created by
at least one event, so its distinct-session count is at least 1 and the
unguarded conversion-rate division has a positive divisor. -/
theorem trends_bucket_sessions_pos (events : List Event) (t : TrendPoint)
    (ht : t ∈ computeTrends events) :
    1 ≤ t.sessions ∧
      t.conversion_rate = ((t.conversions : ℚ) / (t.sessions : ℚ)) * 100 := by
  simp only [computeTrends] at ht
  have hperm := List.perm_insertionSort (fun a b : TrendPoint => strLe a.date b.date = true)
    ((dedupFS (events.map (fun e => dateOf e.timestamp))).map (trendBucket events))
  have ht2 := (hperm.mem_iff).mp ht
  obtain ⟨d, hd, rfl⟩ := List.mem_map.mp ht2
  have hd2 : d ∈ events.map (fun e => dateOf e.timestamp) := mem_dedupFS.mp hd
  obtain ⟨e, he, hde⟩ := List.mem_map.mp hd2
  constructor
  · have hmem : e ∈ events.filter (fun x => dateOf x.timestamp = d) :=
      List.mem_filter.mpr ⟨he, by simp [hde]⟩
    have hne : (events.filter (fun x => dateOf x.timestamp = d)).map
        (fun x => x.session_id) ≠ [] := by
      intro hnil
      rw [List.map_eq_nil_iff] at hnil
      rw [hnil] at hmem
      simp at hmem
    simpa [trendBucket] using distinctCount_pos hne
  · simp [trendBucket]

theorem trends_bucket_sessions_pos_witness :
    ((computeTrends scenario3).getD 0 default ∈ computeTrends scenario3) ∧
      (1 ≤ ((computeTrends scenario3).getD 0 default).sessions ∧
        ((computeTrends scenario3).getD 0 default).conversion_rate =
          ((((computeTrends scenario3).getD 0 default).conversions : ℚ) /
            (((computeTrends scenario3).getD 0 default).sessions : ℚ)) * 100) :=
  have hm : (computeTrends scenario3).getD 0 default ∈ computeTrends scenario3 :=
    getD_mem_of_lt _ 0 (by decide)
  ⟨hm, trends_bucket_sessions_pos scenario3 _ hm⟩


/-- C6: every experiment the A/B aggregator returns has exactly the two
arms A and B in that order, and an arm with zero sessions reports zero for
conversion_rate and revenue_per_session. -/
theorem abtest_two_arms (events : List Event) (exp : ABExperiment)
    (hexp : exp ∈ computeABResults events) :
    exp.results.map (fun r => r.variant) = ["A", "B"] ∧
      ∀ r ∈ exp.results, r.sessions = 0 →
        r.conversion_rate = 0 ∧ r.revenue_per_session = 0 := by
  simp only [computeABResults] at hexp
  obtain ⟨eid, _, rfl⟩ := List.mem_map.mp hexp
  constructor
  · simp [variantResult]
  · intro r hr h0
    simp only [List.mem_map] at hr
    obtain ⟨v, hv, rfl⟩ := hr
    simp only [variantResult] at h0 ⊢
    simp only [h0]
    norm_num

theorem abtest_two_arms_witness :
    ((computeABResults scenario3).getD 0 default ∈ computeABResults scenario3) ∧
      ((computeABResults scenario3).getD 0 default).results.map (fun r => r.variant) =
        ["A", "B"] :=
  have hm : (computeABResults scenario3).getD 0 default ∈ computeABResults scenario3 :=
    getD_mem_of_lt _ 0 (by decide)
  ⟨hm, (abtest_two_arms scenario3 _ hm).1⟩

/-- C7: a session with two purchase events makes its arm's conversion_rate
exceed 100: the rate is not bounded above by 100. -/
theorem abtest_rate_exceeds_100 :
    ∃ (events : List Event) (exp : ABExperiment) (r : ABTestResult),
      exp ∈ computeABResults events ∧ r ∈ exp.results ∧ 100 < r.conversion_rate := by
  refine ⟨demoDouble, (computeABResults demoDouble).getD 0 default,
    ((computeABResults demoDouble).getD 0 default).results.getD 0 default,
    getD_mem_of_lt _ 0 (by decide), getD_mem_of_lt _ 0 (by decide), ?_⟩
  have hval : (((computeABResults demoDouble).getD 0 default).results.getD 0
      default).conversion_rate = 200 := by
    simp [computeABResults, demoDouble, mkE, dedupFS, variantResult, distinctCount]
    norm_num
  rw [hval]
  norm_num


/-- C1 counterexample: in the spec's 3-event scenario the begin_checkout
step has 0 sessions, yet the purchase step's pct_from_previous is 100, not
the 0 the claim requires. -/
theorem funnel_pct_prev_counterexample :
    ((computeFunnel scenario3).getD 2 default).sessions = 0 ∧
      ((computeFunnel scenario3).getD 3 default).pct_from_previous = 100 ∧
      ¬ ((computeFunnel scenario3).getD 3 default).pct_from_previous = 0 := by
  refine ⟨by decide, ?_, ?_⟩ <;>
    simp [computeFunnel, FUNNEL_STEPS, stepSessionsOf, dedupFS, scenario3, mkE]

/-- C1 (amended): pct_from_previous is 100 for the first step, and it is
also 100 — not 0 — for every later step whose previous step counts 0
sessions, because the code's `previousCount > 0 ? … : 100` fallback covers
both cases. -/
theorem funnel_pct_prev_amended (events : List Event) (i : Nat) (hi : i + 1 < 4)
    (h0 : ((computeFunnel events).getD i default).sessions = 0) :
    ((computeFunnel events).getD 0 default).pct_from_previous = 100 ∧
      ((computeFunnel events).getD (i + 1) default).pct_from_previous = 100 := by
  have hi3 : i < 3 := by omega
  interval_cases i <;>
    simp only [computeFunnel, FUNNEL_STEPS, List.foldl_cons, List.foldl_nil,
      List.nil_append, List.cons_append, List.append_nil, List.singleton_append,
      List.getD_cons_zero, List.getD_cons_succ] at h0 ⊢ <;>
    simp [h0]

theorem funnel_pct_prev_amended_witness :
    (2 + 1 < 4 ∧ ((computeFunnel scenario3).getD 2 default).sessions = 0) ∧
      (((computeFunnel scenario3).getD 0 default).pct_from_previous = 100 ∧
        ((computeFunnel scenario3).getD 3 default).pct_from_previous = 100) :=
  ⟨⟨by norm_num, by decide⟩, funnel_pct_prev_amended scenario3 2 (by norm_num) (by decide)⟩

/-- C5: the funnel output is the four fixed steps in order (step names as
the route renders them), and each step's session count is the number of
distinct session ids having at least one event of that name — multiplicity
inside a session does not matter, other event names are ignored. -/
theorem funnel_fixed_steps (events : List Event) :
    (computeFunnel events).map (fun s => s.step_name) =
        ["page view", "add to_cart", "begin checkout", "purchase"] ∧
      (computeFunnel events).map (fun s => s.sessions) =
        FUNNEL_STEPS.map (fun st =>
          ((events.filter (fun e => e.event_name = st)).map
            (fun e => e.session_id)).toFinset.card) := by
  constructor
  · simp only [computeFunnel, FUNNEL_STEPS, List.foldl_cons, List.foldl_nil,
      List.nil_append, List.cons_append, List.append_nil, List.singleton_append,
      List.map_cons, List.map_nil]
    rfl
  · simp only [computeFunnel, FUNNEL_STEPS, List.foldl_cons, List.foldl_nil,
      List.nil_append, List.cons_append, List.append_nil, List.singleton_append,
      List.map_cons, List.map_nil, stepSessionsOf]
    simp [dedupFS_length_eq_card]


/-- C2 (failing input): on three events with hours 2 and 10 on 2024-03-01
and hour 5 on 2024-03-02, the multi-day overview branch emits buckets only
for the three occurring (date, hour) pairs, but orders hour 10 before
hour 2 on the same date, because the composite sort key carries the hour
unpadded. -/
theorem overview_multiday_unpadded_hour_sort :
    (computeOverview demoMultiDay none none none none).is_single_day = false ∧
      ((computeOverview demoMultiDay none none none none).hourly_metrics.map
        (fun m => (m.day, m.hour_24))) =
        [(some "2024-03-01", 10), (some "2024-03-01", 2), (some "2024-03-02", 5)] := by
  decide

/-- C3 counterexample: over a one-event collection, page "0" and the
non-numeric page "abc" both return an empty data array, while page 1 — the
claimed clamping target — returns the event; so page < 1 and non-numeric
page are not clamped to the defaults. -/
theorem events_pagination_counterexample :
    (listEvents demoOne (some "0") none none).data = [] ∧
      (listEvents demoOne (some "abc") none none).data = [] ∧
      (listEvents demoOne none (some "abc") none).data = [] ∧
      (listEvents demoOne (some "1") none none).data = demoOne ∧
      demoOne ≠ [] := by
  decide

theorem jsSlice_eq_nil_of_ge (l : List Event) (S : Int) (E : Option Int)
    (h : (l.length : Int) ≤ S) (hS : 0 ≤ S) :
    jsSlice l (some S) E = [] := by
  have h1 : ¬ S < 0 := by omega
  have h2 : min S.toNat l.length = l.length := by omega
  apply List.eq_nil_of_length_eq_zero
  simp only [jsSlice, sliceIndex, if_neg h1, h2, List.length_drop, List.length_take]
  have := sliceIndex_le l.length E
  simp only [sliceIndex] at this
  omega

/-- C3 (amended): the limit is capped at 200 (`Math.min`), and a page whose
offset reaches past the filtered set returns an empty data array with no
error; but a page below 1 or a non-numeric page/limit is not clamped to
the defaults — it flows through NaN/negative `slice` semantics instead. -/
theorem events_pagination_amended (events : List Event)
    (pRaw lRaw sid : Option String) (p l : Int)
    (hp : jsParseInt (jsOr pRaw "1") = some p)
    (hl : jsParseInt (jsOr lRaw "50") = some l)
    (hp1 : 1 ≤ p)
    (hrange : ((listEvents events pRaw lRaw sid).total : Int) ≤ (p - 1) * min l 200) :
    (listEvents events pRaw lRaw sid).limit = some (min l 200) ∧
      (listEvents events pRaw lRaw sid).data = [] := by
  simp only [listEvents, hp, hl, Option.map_some', Option.bind_some, Option.some_bind] at hrange ⊢
  refine ⟨trivial, ?_⟩
  set filtered :=
    (match sid with
      | none => events
      | some s => if s = "" then events else events.filter (fun e => e.session_id = s)) with hf
  have hlen : (List.insertionSort
      (fun a b : Event => strLe b.timestamp a.timestamp = true) filtered).length =
      filtered.length :=
    (List.perm_insertionSort _ filtered).length_eq
  apply jsSlice_eq_nil_of_ge
  · rw [hlen]
    exact hrange
  · have : (0 : Int) ≤ (filtered.length : Int) := by positivity
    omega

theorem events_pagination_amended_witness :
    (jsParseInt (jsOr (some "2") "1") = some 2 ∧
        jsParseInt (jsOr (some "300") "50") = some 300 ∧
        (1 : Int) ≤ 2 ∧
        ((listEvents demoOne (some "2") (some "300") none).total : Int) ≤
          (2 - 1) * min 300 200) ∧
      ((listEvents demoOne (some "2") (some "300") none).limit = some (min 300 200) ∧
        (listEvents demoOne (some "2") (some "300") none).data = []) :=
  ⟨⟨by decide, by decide, by norm_num, by decide⟩,
    events_pagination_amended demoOne (some "2") (some "300") none 2 300
      (by decide) (by decide) (by norm_num) (by decide)⟩

/-- C4 counterexample: an event at 10:00 on 2024-01-05 has its date inside
the bounds [2024-01-01, 2024-01-05], yet the date-range filter drops it,
because the code compares the full timestamp (not its date part) against
the date-only end bound. -/
theorem daterange_end_cut_counterexample :
    filterEventsByDateRange [demoEndDate] (some "2024-01-01") (some "2024-01-05") = [] ∧
      strLe "2024-01-01" (dateOf demoEndDate.timestamp) = true ∧
      strLe (dateOf demoEndDate.timestamp) "2024-01-05" = true := by
  decide

/-- C4 (amended): with non-empty bounds, an event is retained exactly when
its full timestamp lies between the bounds in string order; with a
date-only end bound this excludes every event later in the day on the end
date.  The overview route applies the identical date comparisons. -/
theorem daterange_amended (events : List Event) (s t : String) (e : Event)
    (hs : s ≠ "") (ht : t ≠ "") :
    (e ∈ filterEventsByDateRange events (some s) (some t) ↔
        e ∈ events ∧ strLe s e.timestamp = true ∧ strLe e.timestamp t = true) ∧
      overviewFilter events (some s) (some t) none none =
        filterEventsByDateRange events (some s) (some t) := by
  constructor
  · simp only [filterEventsByDateRange, hs, ht, if_neg, List.mem_filter]
    simp [hs, ht]
    tauto
  · simp [overviewFilter, filterEventsByDateRange, hs, ht]

theorem daterange_amended_witness :
    ("2024-01-01" ≠ "" ∧ "2024-01-05" ≠ "") ∧
      ((demoEndDate ∈ filterEventsByDateRange [demoEndDate]
          (some "2024-01-01") (some "2024-01-05") ↔
        demoEndDate ∈ [demoEndDate] ∧
          strLe "2024-01-01" demoEndDate.timestamp = true ∧
          strLe demoEndDate.timestamp "2024-01-05" = true) ∧
        overviewFilter [demoEndDate] (some "2024-01-01") (some "2024-01-05") none none =
          filterEventsByDateRange [demoEndDate] (some "2024-01-01") (some "2024-01-05")) :=
  ⟨⟨by decide, by decide⟩,
    daterange_amended [demoEndDate] "2024-01-01" "2024-01-05" demoEndDate
      (by decide) (by decide)⟩


end Analytics
